import Mathlib

/-!
Shallow embedding of the core pipeline of the Health_Symptom_Checker backend
(`Backend/services/pinecone_service.py`, `Backend/services/pdf_service.py`,
`Backend/services/llm_service.py`) together with proofs settling the frozen
claims about its specification.

Python strings are modelled as `String`/`List Char`; Python floats produced by
the code under scrutiny are exact quotients of naturals, so they are modelled
as `ℚ`; exceptions are modelled with `Option`/`Except`; the unbounded `while`
loop of `chunk_text` is modelled with explicit fuel, `none` meaning that the
loop did not finish within the given iteration budget.  Case folding is
modelled on the ASCII range, which covers every string the embedded code
compares.
-/

set_option maxRecDepth 100000

namespace HealthChecker

/-! ### Basic character and string helpers -/

/-- The apostrophe character (U+0027). -/
def apos : Char := Char.ofNat 39

/-- Opening curly brace (U+007B). -/
def lbrace : Char := Char.ofNat 123

/-- Closing curly brace (U+007D). -/
def rbrace : Char := Char.ofNat 125

/-- ASCII lower-casing of a single character (model of `str.lower` on the
ASCII range). -/
def asciiLower (c : Char) : Char :=
  if 'A' ≤ c ∧ c ≤ 'Z' then Char.ofNat (c.toNat + 32) else c

/-- ASCII upper-casing of a single character (model of `str.upper` on the
ASCII range). -/
def asciiUpper (c : Char) : Char :=
  if 'a' ≤ c ∧ c ≤ 'z' then Char.ofNat (c.toNat - 32) else c

def lowerL (l : List Char) : List Char := l.map asciiLower

def upperL (l : List Char) : List Char := l.map asciiUpper

/-- Characters treated as whitespace by Python `str.strip`, `\s` and
`str.split()` on ASCII input: space, tab, newline, carriage return, vertical
tab, form feed. -/
def isPyWs (c : Char) : Bool :=
  c = ' ' || c = '\t' || c = '\n' || c = '\x0d' || c = Char.ofNat 11 || c = Char.ofNat 12

def isAsciiUpperAlpha (c : Char) : Bool := 'A' ≤ c && c ≤ 'Z'

def isAsciiLowerAlpha (c : Char) : Bool := 'a' ≤ c && c ≤ 'z'

def isAsciiAlpha (c : Char) : Bool := isAsciiUpperAlpha c || isAsciiLowerAlpha c

def isDigitCh (c : Char) : Bool := '0' ≤ c && c ≤ '9'

/-- Model of Python `str.strip()`: remove leading and trailing whitespace. -/
def pyStrip (l : List Char) : List Char :=
  ((l.dropWhile isPyWs).reverse.dropWhile isPyWs).reverse

/-- Model of the Python substring test `needle in hay`. -/
def containsSub (needle : List Char) : List Char → Bool
  | [] => needle.isPrefixOf []
  | c :: t => needle.isPrefixOf (c :: t) || containsSub needle t

/-- Model of Python `str.split(sep)` for a single-character separator. -/
def splitOn1 (sep : Char) : List Char → List (List Char)
  | [] => [[]]
  | c :: t =>
    let r := splitOn1 sep t
    if c = sep then [] :: r
    else
      match r with
      | h :: rest => (c :: h) :: rest
      | [] => [[c]]

/-! ### SHA-256 (model of `hashlib.sha256`)

32-bit machine words are naturals kept below `2 ^ 32`; every operation reduces
modulo `2 ^ 32` where overflow could occur. -/

def add32 (a b : Nat) : Nat := (a + b) % 4294967296

def not32 (a : Nat) : Nat := 4294967295 - a

def rotr32 (n x : Nat) : Nat := x / 2 ^ n + x % 2 ^ n * 2 ^ (32 - n)

def shr32 (n x : Nat) : Nat := x / 2 ^ n

def sSig0 (x : Nat) : Nat := Nat.xor (rotr32 7 x) (Nat.xor (rotr32 18 x) (shr32 3 x))

def sSig1 (x : Nat) : Nat := Nat.xor (rotr32 17 x) (Nat.xor (rotr32 19 x) (shr32 10 x))

def bSig0 (x : Nat) : Nat := Nat.xor (rotr32 2 x) (Nat.xor (rotr32 13 x) (rotr32 22 x))

def bSig1 (x : Nat) : Nat := Nat.xor (rotr32 6 x) (Nat.xor (rotr32 11 x) (rotr32 25 x))

def chFn (x y z : Nat) : Nat := Nat.xor (Nat.land x y) (Nat.land (not32 x) z)

def majFn (x y z : Nat) : Nat :=
  Nat.xor (Nat.land x y) (Nat.xor (Nat.land x z) (Nat.land y z))

/-- The 64 SHA-256 round constants. -/
def sha256K : List Nat :=
  [1116352408, 1899447441, 3049323471, 3921009573,
   961987163, 1508970993, 2453635748, 2870763221,
   3624381080, 310598401, 607225278, 1426881987,
   1925078388, 2162078206, 2614888103, 3248222580,
   3835390401, 4022224774, 264347078, 604807628,
   770255983, 1249150122, 1555081692, 1996064986,
   2554220882, 2821834349, 2952996808, 3210313671,
   3336571891, 3584528711, 113926993, 338241895,
   666307205, 773529912, 1294757372, 1396182291,
   1695183700, 1986661051, 2177026350, 2456956037,
   2730485921, 2820302411, 3259730800, 3345764771,
   3516065817, 3600352804, 4094571909, 275423344,
   430227734, 506948616, 659060556, 883997877,
   958139571, 1322822218, 1537002063, 1747873779,
   1955562222, 2024104815, 2227730452, 2361852424,
   2428436474, 2756734187, 3204031479, 3329325298]

/-- Working state of the compression function. -/
structure Sha256State where
  a : Nat
  b : Nat
  c : Nat
  d : Nat
  e : Nat
  f : Nat
  g : Nat
  hh : Nat

def sha256Init : Sha256State :=
  ⟨1779033703, 3144134277, 1013904242, 2773480762,
   1359893119, 2600822924, 528734635, 1541459225⟩

/-- Big-endian rendering of `v` on `n` bytes. -/
def beBytes (n v : Nat) : List Nat :=
  (List.range n).map (fun i => v / 2 ^ (8 * (n - 1 - i)) % 256)

/-- SHA-256 padding: `0x80`, zero bytes, then the 64-bit big-endian message
bit length, bringing the total length to a multiple of 64. -/
def sha256Pad (msg : List Nat) : List Nat :=
  msg ++ [0x80] ++ List.replicate ((119 - msg.length % 64) % 64) 0
      ++ beBytes 8 (8 * msg.length)

/-- Cut a (padded) byte list into 64-byte blocks. -/
def toBlocks (l : List Nat) : List (List Nat) :=
  (List.range ((l.length + 63) / 64)).map (fun i => (l.drop (64 * i)).take 64)

/-- Big-endian 32-bit word from four bytes. -/
def beWord (bs : List Nat) : Nat := bs.foldl (fun acc b => acc * 256 + b) 0

/-- Extend the 16 block words to the 64-entry message schedule. -/
def extendW : Nat → List Nat → List Nat
  | 0, w => w
  | n + 1, w =>
    let i := w.length
    let nw := add32 (add32 (sSig1 (w.getD (i - 2) 0)) (w.getD (i - 7) 0))
                    (add32 (sSig0 (w.getD (i - 15) 0)) (w.getD (i - 16) 0))
    extendW n (w ++ [nw])

def msgSchedule (block : List Nat) : List Nat :=
  extendW 48 ((List.range 16).map (fun i => beWord ((block.drop (4 * i)).take 4)))

def roundStep (st : Sha256State) (kw : Nat × Nat) : Sha256State :=
  let t1 := add32 st.hh (add32 (bSig1 st.e) (add32 (chFn st.e st.f st.g) (add32 kw.1 kw.2)))
  let t2 := add32 (bSig0 st.a) (majFn st.a st.b st.c)
  ⟨add32 t1 t2, st.a, st.b, st.c, add32 st.d t1, st.e, st.f, st.g⟩

def compressBlock (st : Sha256State) (block : List Nat) : Sha256State :=
  let fin := ((sha256K.zip (msgSchedule block)).foldl roundStep st)
  ⟨add32 st.a fin.a, add32 st.b fin.b, add32 st.c fin.c, add32 st.d fin.d,
   add32 st.e fin.e, add32 st.f fin.f, add32 st.g fin.g, add32 st.hh fin.hh⟩

/-- The four big-endian bytes of a 32-bit word. -/
def wordBytes (w : Nat) : List Nat :=
  [w / 2 ^ 24 % 256, w / 2 ^ 16 % 256, w / 2 ^ 8 % 256, w % 256]

/-- SHA-256 digest (32 bytes) of a byte string. -/
def sha256 (msg : List Nat) : List Nat :=
  let fin := (toBlocks (sha256Pad msg)).foldl compressBlock sha256Init
  wordBytes fin.a ++ wordBytes fin.b ++ wordBytes fin.c ++ wordBytes fin.d ++
  wordBytes fin.e ++ wordBytes fin.f ++ wordBytes fin.g ++ wordBytes fin.hh

/-- UTF-8 encoding of one character (model of `str.encode`). -/
def utf8Char (c : Char) : List Nat :=
  let n := c.toNat
  if n < 0x80 then [n]
  else if n < 0x800 then [0xC0 + n / 64, 0x80 + n % 64]
  else if n < 0x10000 then [0xE0 + n / 4096, 0x80 + n / 64 % 64, 0x80 + n % 64]
  else [0xF0 + n / 262144, 0x80 + n / 4096 % 64, 0x80 + n / 64 % 64, 0x80 + n % 64]

def utf8Encode (s : String) : List Nat := (s.data.map utf8Char).flatten

/-- Lower-case hex digit for a value below 16 (model of `hexdigest`
rendering). -/
def hexDigitCh (n : Nat) : Char :=
  if n < 10 then Char.ofNat (48 + n) else Char.ofNat (87 + n)

def byteHex (b : Nat) : List Char := [hexDigitCh (b / 16), hexDigitCh (b % 16)]

/-- Model of `hashlib.sha256(...).hexdigest()` applied to a digest byte
list. -/
def hexdigest (bytes : List Nat) : List Char := (bytes.map byteHex).flatten

/-- Value of one hex character (model of `int(c, 16)` per character). -/
def hexCharVal (c : Char) : Nat :=
  if '0' ≤ c ∧ c ≤ '9' then c.toNat - 48
  else if 'a' ≤ c ∧ c ≤ 'f' then c.toNat - 87
  else if 'A' ≤ c ∧ c ≤ 'F' then c.toNat - 55
  else 0

/-- Model of `int(s, 16)` on a hex string. -/
def hexPairVal (l : List Char) : Nat := l.foldl (fun a c => a * 16 + hexCharVal c) 0

/-! ### `PineconeService.generate_embedding`, hash fallback path

From `pinecone_service.py` lines 244-255: the `ImportError` branch hashes the
text with SHA-256, turns hex-digit pairs back into bytes scaled by `255.0`,
pads with `0.0` up to 1024 entries and truncates to 1024. -/

/-- Dimension of the Pinecone index created by `_initialize_index`
(`create_index(..., dimension=384, ...)`). -/
def indexDimension : Nat := 384

/-- One fallback vector entry: `int(hash_hex[i:i+2], 16) / 255.0`. -/
def scaleByte (b : Nat) : ℚ := (b : ℚ) / 255

/-- The hash-based fallback branch of `generate_embedding`. -/
def fallbackEmbedding (text : String) : List ℚ :=
  let hashHex := hexdigest (sha256 (utf8Encode text))
  let emb := (List.range ((min (1024 * 2) hashHex.length + 1) / 2)).map
      (fun k => scaleByte (hexPairVal ((hashHex.drop (2 * k)).take 2)))
  let emb2 := if emb.length < 1024 then emb ++ List.replicate (1024 - emb.length) (0 : ℚ) else emb
  emb2.take 1024

/-! ### `PDFService.chunk_text`

From `pdf_service.py` lines 157-192.  The Python `while start < len(text)`
loop has no termination guarantee (and none is claimed by the code), so it is
modelled with explicit fuel; `none` means the loop did not finish within the
given iteration budget.  `start` is carried as an integer because the Python
code lets `start = end - overlap` go below zero. -/

/-- Python slice `l[a:b]` with negative-index semantics. -/
def pySlice (l : List Char) (a b : ℤ) : List Char :=
  let n : ℤ := l.length
  let na := (if a < 0 then max (n + a) 0 else min a n).toNat
  let nb := (if b < 0 then max (n + b) 0 else min b n).toNat
  (l.take nb).drop na

/-- Model of Python `str.rfind(c)`: index of the last occurrence, `-1` if
absent. -/
def rfindIdx (c : Char) : List Char → ℤ
  | [] => -1
  | a :: t =>
    let r := rfindIdx c t
    if r = -1 then (if a = c then 0 else -1) else r + 1

/-- One iteration of the `while start < len(text)` loop of `chunk_text`:
take the window `text[start:start+chunk_size]`, optionally cut it back at the
last sentence terminator or line break past the midpoint, append the stripped
chunk, and advance `start` to `end - overlap`. -/
def chunkLoop (text : List Char) (size overlap : Nat) : Nat → ℤ → Option (List (List Char))
  | 0, _ => none
  | fuel + 1, start =>
    if start < (text.length : ℤ) then
      let end0 : ℤ := start + size
      let chunk0 := pySlice text start end0
      let res : List Char × ℤ :=
        if end0 < (text.length : ℤ) then
          let bp : ℤ := max (rfindIdx '.' chunk0) (rfindIdx '\n' chunk0)
          if 2 * bp > (size : ℤ) then (chunk0.take (bp + 1).toNat, start + bp + 1)
          else (chunk0, end0)
        else (chunk0, end0)
      (chunkLoop text size overlap fuel (res.2 - overlap)).map (fun cs => pyStrip res.1 :: cs)
    else some []

/-- `PDFService.chunk_text(text, chunk_size, overlap)` (defaults 1000 and 200
in the source).  A budget of `len(text) + 1` iterations is enough whenever
`start` advances by at least one position per iteration. -/
def chunkText (text : List Char) (size overlap : Nat) : Option (List (List Char)) :=
  if text.length ≤ size then some [text]
  else chunkLoop text size overlap (text.length + 1) 0

/-- Concatenation of chunks with the leading `overlap` characters of every
chunk after the first removed: the reconstruction the spec describes. -/
def reconOverlap (overlap : Nat) : List (List Char) → List Char
  | [] => []
  | c :: cs => c ++ (cs.map (List.drop overlap)).flatten

/-! ### A small backtracking regular-expression engine

`_parse_text_response` locates a JSON-like object with the Python regex
`\\{[^{}]*(?:\\{[^{}]*\\}[^{}]*)*"conditions"[^{}]*(?:\\{[^{}]*\\}[^{}]*)*\\}`.
The engine below implements exactly the constructs this pattern needs
(literals, single-character classes, concatenation, greedy star) with
Python-style leftmost, greedy, backtracking semantics: a match attempt
returns the list of possible remainders in preference order, and the first
remainder is the one Python picks. -/

inductive RE where
  | lit : List Char → RE
  | cls : (Char → Bool) → RE
  | seq : RE → RE → RE
  | star : RE → RE

/-- Greedy iteration of a star: try consuming one more repetition first,
then fall back to stopping here.  Repetitions must consume input, which
bounds the iteration count by the input length. -/
def starIter (step : List Char → List (List Char)) : Nat → List Char → List (List Char)
  | 0, s => [s]
  | fuel + 1, s =>
    ((step s).flatMap (fun rest =>
      if rest.length < s.length then starIter step fuel rest else [])) ++ [s]

/-- All ways (remainders, in backtracking preference order) a pattern can
match a prefix of `s`. -/
def matchRE : RE → List Char → List (List Char)
  | .lit l, s => if l.isPrefixOf s then [s.drop l.length] else []
  | .cls _, [] => []
  | .cls p, c :: rest => if p c then [rest] else []
  | .seq a b, s => (matchRE a s).flatMap (fun r => matchRE b r)
  | .star r, s => starIter (matchRE r) (s.length + 1) s

/-- Model of `re.search(...).group(0)`: the text of the leftmost match. -/
def searchGroup0 (re : RE) : List Char → Option (List Char)
  | [] =>
    match (matchRE re []).head? with
    | some _ => some []
    | none => none
  | c :: t =>
    match (matchRE re (c :: t)).head? with
    | some rem => some ((c :: t).take ((c :: t).length - rem.length))
    | none => searchGroup0 re t

/-- The JSON-locating pattern of `_parse_text_response`. -/
def nonBrace : RE := RE.cls (fun c => !(c = lbrace || c = rbrace))

def braceGroup : RE :=
  RE.seq (.lit [lbrace]) (RE.seq (.star nonBrace) (RE.seq (.lit [rbrace]) (.star nonBrace)))

def jsonPattern : RE :=
  RE.seq (.lit [lbrace])
    (RE.seq (.star nonBrace)
      (RE.seq (.star braceGroup)
        (RE.seq (.lit ("\"conditions\"".data))
          (RE.seq (.star nonBrace)
            (RE.seq (.star braceGroup) (.lit [rbrace]))))))

/-! ### JSON values and a model of `json.loads` -/

inductive JVal where
  | jstr : List Char → JVal
  | jnum : JVal
  | jbool : Bool → JVal
  | jnull : JVal
  | jarr : List JVal → JVal
  | jobj : List (List Char × JVal) → JVal

/-- JSON whitespace accepted between tokens. -/
def skipWsJ (s : List Char) : List Char :=
  s.dropWhile (fun c => c = ' ' || c = '\t' || c = '\n' || c = '\x0d')

def isHexCh (c : Char) : Bool :=
  isDigitCh c || ('a' ≤ c && c ≤ 'f') || ('A' ≤ c && c ≤ 'F')

/-- Single-character JSON escapes. -/
def escChar (e : Char) : Option Char :=
  if e = '"' || e = '\\' || e = '/' then some e
  else if e = 'b' then some (Char.ofNat 8)
  else if e = 'f' then some (Char.ofNat 12)
  else if e = 'n' then some '\n'
  else if e = 'r' then some (Char.ofNat 13)
  else if e = 't' then some '\t'
  else none

/-- Body of a JSON string after the opening quote; strict mode rejects raw
control characters, as Python `json` does. -/
def parseStrBody : Nat → List Char → Option (List Char × List Char)
  | 0, _ => none
  | fuel + 1, s =>
    match s with
    | [] => none
    | c :: t =>
      if c = '"' then some ([], t)
      else if c = '\\' then
        match t with
        | e :: t2 =>
          if e = 'u' then
            match t2 with
            | h1 :: h2 :: h3 :: h4 :: t3 =>
              if isHexCh h1 && isHexCh h2 && isHexCh h3 && isHexCh h4 then
                (parseStrBody fuel t3).map
                  (fun p => (Char.ofNat (hexPairVal [h1, h2, h3, h4]) :: p.1, p.2))
              else none
            | _ => none
          else
            match escChar e with
            | some ce => (parseStrBody fuel t2).map (fun p => (ce :: p.1, p.2))
            | none => none
        | [] => none
      else if c.toNat < 32 then none
      else (parseStrBody fuel t).map (fun p => (c :: p.1, p.2))

/-- A JSON number token; returns the remainder after it. -/
def parseNum (s : List Char) : Option (List Char) :=
  let s1 := match s with
    | c :: t => if c = '-' then t else s
    | [] => s
  let ds := s1.takeWhile isDigitCh
  if ds.isEmpty then none
  else
    let s2 := s1.drop ds.length
    let s3opt : Option (List Char) :=
      match s2 with
      | c :: t =>
        if c = '.' then
          let fs := t.takeWhile isDigitCh
          if fs.isEmpty then none else some (t.drop fs.length)
        else some s2
      | [] => some s2
    match s3opt with
    | none => none
    | some s3 =>
      match s3 with
      | c :: t =>
        if c = 'e' || c = 'E' then
          let t2 := match t with
            | c2 :: tt => if c2 = '+' || c2 = '-' then tt else t
            | [] => t
          let es := t2.takeWhile isDigitCh
          if es.isEmpty then none else some (t2.drop es.length)
        else some s3
      | [] => some s3

mutual

/-- Recursive-descent JSON value parser (fuel-bounded). -/
def parseJVal : Nat → List Char → Option (JVal × List Char)
  | 0, _ => none
  | fuel + 1, s0 =>
    let s := skipWsJ s0
    match s with
    | [] => none
    | c :: t =>
      if c = '"' then
        (parseStrBody (fuel + 1) t).map (fun p => (JVal.jstr p.1, p.2))
      else if c = lbrace then
        match skipWsJ t with
        | c2 :: t2 =>
          if c2 = rbrace then some (.jobj [], t2)
          else parseMembers fuel (skipWsJ t) []
        | [] => none
      else if c = '[' then
        match skipWsJ t with
        | c2 :: t2 =>
          if c2 = ']' then some (.jarr [], t2)
          else parseItems fuel (skipWsJ t) []
        | [] => none
      else if ("true".data).isPrefixOf s then some (.jbool true, s.drop 4)
      else if ("false".data).isPrefixOf s then some (.jbool false, s.drop 5)
      else if ("null".data).isPrefixOf s then some (.jnull, s.drop 4)
      else (parseNum s).map (fun rest => (JVal.jnum, rest))

/-- Members of a JSON object, starting at a `"key": value` pair. -/
def parseMembers : Nat → List Char → List (List Char × JVal) → Option (JVal × List Char)
  | 0, _, _ => none
  | fuel + 1, s, acc =>
    match skipWsJ s with
    | c :: t =>
      if c = '"' then
        match parseStrBody (fuel + 1) t with
        | some (key, r1) =>
          match skipWsJ r1 with
          | c2 :: t2 =>
            if c2 = ':' then
              match parseJVal fuel t2 with
              | some (v, r2) =>
                match skipWsJ r2 with
                | c3 :: t3 =>
                  if c3 = ',' then parseMembers fuel t3 (acc ++ [(key, v)])
                  else if c3 = rbrace then some (.jobj (acc ++ [(key, v)]), t3)
                  else none
                | [] => none
              | none => none
            else none
          | [] => none
        | none => none
      else none
    | [] => none

/-- Items of a JSON array. -/
def parseItems : Nat → List Char → List JVal → Option (JVal × List Char)
  | 0, _, _ => none
  | fuel + 1, s, acc =>
    match parseJVal fuel s with
    | some (v, r) =>
      match skipWsJ r with
      | c :: t =>
        if c = ',' then parseItems fuel t (acc ++ [v])
        else if c = ']' then some (.jarr (acc ++ [v]), t)
        else none
      | [] => none
    | none => none

end

/-- Model of `json.loads`: the whole string must be one JSON value, up to
surrounding whitespace. -/
def jsonLoads (s : List Char) : Option JVal :=
  match parseJVal (2 * s.length + 2) s with
  | some (v, rest) => if (skipWsJ rest).isEmpty then some v else none
  | none => none

/-- Dictionary lookup; Python keeps the last of duplicate keys. -/
def objGet (kvs : List (List Char × JVal)) (key : List Char) : Option JVal :=
  ((kvs.filter (fun kv => kv.1 == key)).getLast?).map (fun kv => kv.2)

/-! ### `LLMService._parse_text_response` and its helpers -/

/-- The structured result (`SymptomAnalysis` pydantic model). -/
structure SymptomAnalysis where
  conditions : List String
  recommendations : List String
  severity_assessment : String
deriving DecidableEq, Repr

/-- Pydantic validation of a `List[str]` field: a JSON array of strings. -/
def asStrList : JVal → Option (List String)
  | .jarr xs =>
    xs.foldr (fun x acc =>
      match x, acc with
      | .jstr c, some l => some (c.asString :: l)
      | _, _ => none) (some [])
  | _ => none

/-- Pydantic validation of a `str` field. -/
def asStr : JVal → Option String
  | .jstr c => some c.asString
  | _ => none

/-- Stage 1 of `_parse_text_response`: regex-locate a JSON object carrying a
`"conditions"` key, normalise single quotes to double quotes, `json.loads` it
and build the pydantic model from `conditions` / `recommendations` /
`severity_assessment` (defaults `[]`, `[]`, `"moderate"`).  Any failure
(no regex match, JSON error, pydantic validation error) yields `none` and the
caller falls through to text parsing. -/
def jsonExtract (t : String) : Option SymptomAnalysis :=
  match searchGroup0 jsonPattern t.data with
  | none => none
  | some m =>
    let fixed := m.map (fun c => if c = apos then '"' else c)
    match jsonLoads fixed with
    | some (.jobj kvs) =>
      let cv := (objGet kvs ("conditions".data)).getD (.jarr [])
      let rv := (objGet kvs ("recommendations".data)).getD (.jarr [])
      let sv := (objGet kvs ("severity_assessment".data)).getD (.jstr ("moderate".data))
      match asStrList cv, asStrList rv, asStr sv with
      | some cs, some rs, some sev => some ⟨cs, rs, sev⟩
      | _, _, _ => none
    | _ => none

/-- Section being filled during the line scan. -/
inductive PSec where
  | conds
  | recs
deriving DecidableEq

/-- Accumulator of the section/line parsing stage. -/
structure ParseAcc where
  conditions : List (List Char)
  recommendations : List (List Char)
  severity : List Char
  sec : Option PSec

/-- Strip a numbered-item prefix, regex `^\\d+[\\.\\)]\\s+`. -/
def stripNumPrefix (l : List Char) : Option (List Char) :=
  let ds := l.takeWhile isDigitCh
  if ds.isEmpty then none
  else
    match l.drop ds.length with
    | c :: rest =>
      if c = '.' || c = ')' then
        let ws := rest.takeWhile isPyWs
        if ws.isEmpty then none else some (rest.drop ws.length)
      else none
    | [] => none

/-- Strip a bullet prefix, regex `^[-•*]\\s+`. -/
def stripBulletPrefix (l : List Char) : Option (List Char) :=
  match l with
  | c :: rest =>
    if c = '-' || c = '•' || c = '*' then
      let ws := rest.takeWhile isPyWs
      if ws.isEmpty then none else some (rest.drop ws.length)
    else none
  | [] => none

/-- Model of Python `str.isupper` on ASCII: at least one cased character and
no lower-case one. -/
def pyIsUpper (l : List Char) : Bool :=
  l.any isAsciiAlpha && !(l.any isAsciiLowerAlpha)

/-- Append an accepted item to the current section, capped at 5 entries. -/
def addItem (acc : ParseAcc) (content : List Char) : ParseAcc :=
  match acc.sec with
  | some .conds =>
    if acc.conditions.length < 5 then { acc with conditions := acc.conditions ++ [content] }
    else acc
  | some .recs =>
    if acc.recommendations.length < 5 then
      { acc with recommendations := acc.recommendations ++ [content] }
    else acc
  | none => acc

/-- Stage 2 of `_parse_text_response`, one line of the scan: header lines
switch the section, a `severity` line re-assigns severity (`mild` checked
before `severe` before `moderate`), numbered items, bullets and sufficiently
long capitalised sentences are collected into the current section. -/
def processLine (acc : ParseAcc) (raw : List Char) : ParseAcc :=
  let line := pyStrip raw
  if line.isEmpty then acc
  else
    let lower := lowerL line
    if containsSub ("condition".data) lower
        && (line.contains ':' || ("condition".data).isPrefixOf lower) then
      { acc with sec := some .conds }
    else if (containsSub ("recommendation".data) lower || containsSub ("next step".data) lower)
        && (line.contains ':' || ("recommendation".data).isPrefixOf lower) then
      { acc with sec := some .recs }
    else if containsSub ("severity".data) lower then
      if containsSub ("mild".data) lower then { acc with severity := "mild".data }
      else if containsSub ("severe".data) lower then { acc with severity := "severe".data }
      else if containsSub ("moderate".data) lower then { acc with severity := "moderate".data }
      else acc
    else
      match stripNumPrefix line with
      | some rest =>
        let content := pyStrip rest
        if !content.isEmpty && 5 < content.length then addItem acc content else acc
      | none =>
        match stripBulletPrefix line with
        | some rest =>
          let content := pyStrip rest
          if !content.isEmpty && 5 < content.length then addItem acc content else acc
        | none =>
          if acc.sec.isSome && 10 < line.length && !(pyIsUpper line) then
            match acc.sec with
            | some .conds =>
              if acc.conditions.length < 5 && isAsciiUpperAlpha (line.headD ' ') then
                { acc with conditions := acc.conditions ++ [line] }
              else acc
            | some .recs =>
              if acc.recommendations.length < 5 && isAsciiUpperAlpha (line.headD ' ') then
                { acc with recommendations := acc.recommendations ++ [line] }
              else acc
            | none => acc
          else acc

def initAcc : ParseAcc := ⟨[], [], "moderate".data, none⟩

/-- The whole line scan of stage 2. -/
def sectionParse (t : String) : ParseAcc :=
  (splitOn1 '\n' t.data).foldl processLine initAcc

/-! ### Stage 3: the regex fallback extractors

Implemented pattern by pattern with Python `re.findall` semantics: scan left
to right, non-overlapping matches, `IGNORECASE` matching while captures keep
the original case, greedy quantifiers with backtracking. -/

/-- Case-insensitive literal prefix; returns the remainder. -/
def ciPrefix : List Char → List Char → Option (List Char)
  | [], s => some s
  | _ :: _, [] => none
  | a :: lt, b :: st => if asciiLower b = a then ciPrefix lt st else none

/-- First alternative of the group that matches (the alternatives used below
are pairwise non-overlapping, so this is Python alternation). -/
def tryAlts (alts : List (List Char)) (s : List Char) : Option (List Char) :=
  match alts with
  | [] => none
  | a :: rest =>
    match ciPrefix a s with
    | some r => some r
    | none => tryAlts rest s

def notDotNl (c : Char) : Bool := !(c = '.' || c = '\n')

/-- Greedy-backtracking tail `<sep>+([^\\.\\n]+)`: the separator run is
shortened from its maximum until a non-empty capture can start. -/
def sepCapAux (s : List Char) : Nat → Option (List Char × List Char)
  | 0 => none
  | k + 1 =>
    let tailk := s.drop (k + 1)
    let cap := tailk.takeWhile notDotNl
    if cap.isEmpty then sepCapAux s k else some (cap, tailk.drop cap.length)

def sepThenCapture (isSep : Char → Bool) (s : List Char) : Option (List Char × List Char) :=
  sepCapAux s (s.takeWhile isSep).length

/-- Greedy-backtracking tail `\\s+([A-Z][^\\.\\n]+)` under `IGNORECASE`
(`[A-Z]` then matches any ASCII letter). -/
def sepAlphaCapAux (s : List Char) : Nat → Option (List Char × List Char)
  | 0 => none
  | k + 1 =>
    match s.drop (k + 1) with
    | c :: t =>
      if isAsciiAlpha c then
        let cap2 := t.takeWhile notDotNl
        if cap2.isEmpty then sepAlphaCapAux s k else some (c :: cap2, t.drop cap2.length)
      else sepAlphaCapAux s k
    | [] => sepAlphaCapAux s k

def sepThenAlphaCapture (s : List Char) : Option (List Char × List Char) :=
  sepAlphaCapAux s (s.takeWhile isPyWs).length

/-- Optional literal `s` (regex `[s]?`) before a separator-and-capture tail,
with backtracking. -/
def optSSepCapture (isSep : Char → Bool) (s : List Char) : Option (List Char × List Char) :=
  match s with
  | c :: t =>
    if asciiLower c = 's' then
      match sepThenCapture isSep t with
      | some r => some r
      | none => sepThenCapture isSep s
    else sepThenCapture isSep s
  | [] => none

def isColonWs (c : Char) : Bool := c = ':' || isPyWs c

/-- `(?:possible|likely|probable|potential)\\s+(?:condition|diagnosis|disease|illness)[s]?[:\\s]+([^\\.\\n]+)` -/
def tryCondPat1 (s : List Char) : Option (List Char × List Char) :=
  (tryAlts ["possible".data, "likely".data, "probable".data, "potential".data] s).bind
    (fun s1 =>
      let ws := s1.takeWhile isPyWs
      if ws.isEmpty then none
      else
        (tryAlts ["condition".data, "diagnosis".data, "disease".data, "illness".data]
            (s1.drop ws.length)).bind (optSSepCapture isColonWs))

/-- `(?:could be|might be|may be)\\s+([A-Z][^\\.\\n]+)` -/
def tryCondPat2 (s : List Char) : Option (List Char × List Char) :=
  (tryAlts ["could be".data, "might be".data, "may be".data] s).bind sepThenAlphaCapture

/-- `(?:recommend|suggest|advise|should|next step)[s]?[:\\s]+([^\\.\\n]+)` -/
def tryRecPat1 (s : List Char) : Option (List Char × List Char) :=
  (tryAlts ["recommend".data, "suggest".data, "advise".data, "should".data, "next step".data]
      s).bind (optSSepCapture isColonWs)

/-- `(?:see|consult|visit|contact)\\s+([^\\.\\n]+)` -/
def tryRecPat2 (s : List Char) : Option (List Char × List Char) :=
  (tryAlts ["see".data, "consult".data, "visit".data, "contact".data] s).bind
    (sepThenCapture isPyWs)

/-- `re.findall`: captures of non-overlapping matches, scanning left to
right. -/
def findAllAux (tryAt : List Char → Option (List Char × List Char)) :
    Nat → List Char → List (List Char)
  | 0, _ => []
  | fuel + 1, s =>
    match tryAt s with
    | some (cap, rest) => cap :: findAllAux tryAt fuel rest
    | none =>
      match s with
      | [] => []
      | _ :: t => findAllAux tryAt fuel t

def findAll (tryAt : List Char → Option (List Char × List Char)) (s : List Char) :
    List (List Char) :=
  findAllAux tryAt s.length s

/-- `LLMService._extract_conditions_from_text`. -/
def extractConditionsFromText (t : String) : List String :=
  let ms1 := (findAll tryCondPat1 t.data).map pyStrip
  let ms2 := (findAll tryCondPat2 t.data).map pyStrip
  let cs := ms1.filter (fun m => 5 < m.length) ++ ms2.filter (fun m => 5 < m.length)
  (cs.take 5).map List.asString

/-- `LLMService._extract_recommendations_from_text` (note its own trailing
fallback). -/
def extractRecommendationsFromText (t : String) : List String :=
  let ms1 := (findAll tryRecPat1 t.data).map pyStrip
  let ms2 := (findAll tryRecPat2 t.data).map pyStrip
  let rs := ms1.filter (fun m => 5 < m.length) ++ ms2.filter (fun m => 5 < m.length)
  if rs.isEmpty then ["Consult a healthcare professional"]
  else (rs.take 5).map List.asString

/-- `LLMService._parse_text_response`: stage 1 (JSON extraction) wins when it
succeeds; otherwise stage 2 (line scan), stage 3 (pattern fallback, only for
a list still empty) and stage 4 (static fallback) produce the result, with
both lists truncated to 5.  The embedding is a total function: the Python
method catches every exception of stage 1 internally and the remaining
stages cannot raise. -/
def parseTextResponse (t : String) : SymptomAnalysis :=
  match jsonExtract t with
  | some a => a
  | none =>
    let acc := sectionParse t
    let conds := if acc.conditions.isEmpty then extractConditionsFromText t
                 else acc.conditions.map List.asString
    let recs := if acc.recommendations.isEmpty then extractRecommendationsFromText t
                else acc.recommendations.map List.asString
    let conds2 := if conds.isEmpty then ["Consult a healthcare professional for proper diagnosis"]
                  else conds
    let recs2 := if recs.isEmpty then
                   ["Seek professional medical advice from a qualified healthcare provider"]
                 else recs
    ⟨conds2.take 5, recs2.take 5, acc.severity.asString⟩

/-! ### `LLMService._analyze_symptoms_node` and `generate_symptom_analysis`

The two LLM invocations (first attempt and the single retry) are modelled as
`Except String String` oracles: `.error` is an exception raised by
`self.llm.invoke`, `.ok` the extracted response text.  Every exception inside
the node is caught by its outer `except`, which installs the static fallback
analysis. -/

def ackPhrases : List (List Char) :=
  ["okay, i understand".data, "i will analyze".data, "i can help".data,
   "let me analyze".data, "i".data ++ [apos] ++ "ll provide".data]

/-- The guard `not response_text or len(response_text.strip()) < 10`, which
raises `ValueError` (no retry). -/
def isShortResponse (t : String) : Bool :=
  t.data.isEmpty || (pyStrip t.data).length < 10

/-- The retry trigger: an acknowledgment phrase occurs (as a substring) in
the first 200 characters of the lower-cased response and `CONDITIONS:` occurs
nowhere in the upper-cased response. -/
def needsRetryCheck (t : String) : Bool :=
  (ackPhrases.any (fun p => containsSub p ((lowerL t.data).take 200)))
    && !(containsSub ("CONDITIONS:".data) (upperL t.data))

/-- The fallback `SymptomAnalysis` installed by the node on any exception. -/
def fallbackAnalysis : SymptomAnalysis :=
  ⟨["Unable to analyze symptoms. Please consult a healthcare professional."],
   ["Seek immediate medical attention if symptoms are severe."],
   "Unable to assess"⟩

structure NodeState where
  symptoms : String
  context : Option (List String)
  analysis : Option SymptomAnalysis
  error : Option String
deriving DecidableEq

/-- `_analyze_symptoms_node`: invoke, validate, retry at most once (retry
text is parsed without re-validation), parse; any exception becomes the
fallback analysis. -/
def analyzeSymptomsNode (attempt1 attempt2 : Except String String) (st : NodeState) :
    NodeState :=
  match attempt1 with
  | .error e => { st with analysis := some fallbackAnalysis, error := some e }
  | .ok t =>
    if isShortResponse t then
      { st with analysis := some fallbackAnalysis,
                error := some "LLM returned empty or very short response" }
    else if needsRetryCheck t then
      match attempt2 with
      | .error e => { st with analysis := some fallbackAnalysis, error := some e }
      | .ok r => { st with analysis := some (parseTextResponse r), error := none }
    else { st with analysis := some (parseTextResponse t), error := none }

structure AnalysisResult where
  conditions : List String
  recommendations : List String
  severity : String
deriving DecidableEq, Repr

/-- `generate_symptom_analysis`: run the two-node graph (the second node is
the identity) and project the analysis; the `else` arm and the outer `except`
return the same static dictionary. -/
def generateSymptomAnalysis (attempt1 attempt2 : Except String String)
    (symptoms : String) (context : Option (List String)) : AnalysisResult :=
  let st := analyzeSymptomsNode attempt1 attempt2 ⟨symptoms, context, none, none⟩
  match st.analysis with
  | some a => ⟨a.conditions, a.recommendations, a.severity_assessment⟩
  | none =>
    ⟨["Unable to analyze symptoms. Please consult a healthcare professional."],
     ["Seek immediate medical attention if symptoms are severe."],
     "Unable to assess"⟩

/-! ### `PineconeService` retrieval

The backing index is `None` when `_initialize_index` failed, and otherwise a
query function that may raise (`Except.error`) on access. -/

structure PMatch where
  score : ℚ
  metadata : Option (List (String × String))

def mdGet? (md : List (String × String)) (key : String) : Option String :=
  (md.find? (fun kv => kv.1 == key)).map (fun kv => kv.2)

structure PdfContext where
  text : String
  pdf_name : String
  score : ℚ
deriving DecidableEq

structure SymContext where
  symptoms : String
  conditions : List String
  recommendations : List String
  score : ℚ
deriving DecidableEq

/-- Python `"...".split(",")`. -/
def pySplitComma (s : String) : List String := (splitOn1 ',' s.data).map List.asString

/-- `search_pdf_content`: empty on missing index or on any query exception;
otherwise keep matches whose (truthy) metadata has `type == "pdf"`. -/
def searchPdfContent (index : Option (List ℚ → Nat → Except String (List PMatch)))
    (queryEmbedding : List ℚ) (topK : Nat) : List PdfContext :=
  match index with
  | none => []
  | some q =>
    match q queryEmbedding topK with
    | .error _ => []
    | .ok ms =>
      ms.foldl (fun acc m =>
        match m.metadata with
        | none => acc
        | some md =>
          if md.isEmpty then acc
          else if mdGet? md "type" = some "pdf" then
            acc ++ [⟨(mdGet? md "text").getD "", (mdGet? md "pdf_name").getD "", m.score⟩]
          else acc) []

/-- `search_similar_symptoms`: empty on missing index or on any query
exception. -/
def searchSimilarSymptoms (index : Option (List ℚ → Nat → Except String (List PMatch)))
    (embedding : List ℚ) (topK : Nat) : List SymContext :=
  match index with
  | none => []
  | some q =>
    match q embedding topK with
    | .error _ => []
    | .ok ms =>
      ms.foldl (fun acc m =>
        match m.metadata with
        | none => acc
        | some md =>
          if md.isEmpty then acc
          else
            acc ++ [⟨(mdGet? md "symptoms").getD "",
                     pySplitComma ((mdGet? md "conditions").getD ""),
                     pySplitComma ((mdGet? md "recommendations").getD ""),
                     m.score⟩]) []

/-! ### Structural lemmas about the digest and the fallback embedding -/

theorem sha256_length (msg : List Nat) : (sha256 msg).length = 32 := by
  simp [sha256, wordBytes]

theorem wordBytes_lt (w : Nat) : ∀ x ∈ wordBytes w, x < 256 := by
  intro x hx
  simp only [wordBytes, List.mem_cons, List.not_mem_nil, or_false] at hx
  rcases hx with rfl | rfl | rfl | rfl <;> exact Nat.mod_lt _ (by norm_num)

theorem sha256_lt (msg : List Nat) : ∀ b ∈ sha256 msg, b < 256 := by
  intro b hb
  simp only [sha256, List.mem_append] at hb
  rcases hb with ((((((h | h) | h) | h) | h) | h) | h) | h <;>
    exact wordBytes_lt _ b h

theorem hexdigest_length (bs : List Nat) : (hexdigest bs).length = 2 * bs.length := by
  induction bs with
  | nil => rfl
  | cons b t ih =>
    simp [hexdigest, byteHex] at ih ⊢
    omega

theorem hexCharVal_hexDigitCh (x : Nat) (hx : x < 16) :
    hexCharVal (hexDigitCh x) = x := by
  revert hx
  revert x
  decide

theorem hexPairVal_byteHex (b : Nat) (hb : b < 256) : hexPairVal (byteHex b) = b := by
  have h1 : b / 16 < 16 := by omega
  have h2 : b % 16 < 16 := Nat.mod_lt _ (by norm_num)
  simp [byteHex, hexPairVal, hexCharVal_hexDigitCh _ h1, hexCharVal_hexDigitCh _ h2]
  omega

/-- Decoding hex-digit pairs of a digest recovers the digest bytes. -/
theorem decode_hexdigest (bs : List Nat) (hbs : ∀ b ∈ bs, b < 256) :
    (List.range (((hexdigest bs).length + 1) / 2)).map
      (fun k => hexPairVal (((hexdigest bs).drop (2 * k)).take 2)) = bs := by
  induction bs with
  | nil => rfl
  | cons b t ih =>
    have hb : b < 256 := hbs b (by simp)
    have ht : ∀ x ∈ t, x < 256 := fun x hx => hbs x (by simp [hx])
    have hhd : hexdigest (b :: t)
        = hexDigitCh (b / 16) :: hexDigitCh (b % 16) :: hexdigest t := by
      simp [hexdigest, byteHex]
    have hlen : (hexdigest (b :: t)).length = (hexdigest t).length + 2 := by
      rw [hhd]
      simp
    have hcount : ((hexdigest (b :: t)).length + 1) / 2
        = ((hexdigest t).length + 1) / 2 + 1 := by omega
    rw [hcount, List.range_succ_eq_map, List.map_cons, List.map_map]
    have h0 : hexPairVal (((hexdigest (b :: t)).drop (2 * 0)).take 2) = b := by
      rw [hhd]
      have hbh := hexPairVal_byteHex b hb
      rw [byteHex] at hbh
      simpa [List.take] using hbh
    have hsucc : ∀ k, hexPairVal (((hexdigest (b :: t)).drop (2 * (k + 1))).take 2)
        = hexPairVal (((hexdigest t).drop (2 * k)).take 2) := by
      intro k
      rw [hhd]
      have h2 : 2 * (k + 1) = 2 * k + 1 + 1 := by ring
      rw [h2]
      simp [List.drop_succ_cons]
    have hrest : (List.range (((hexdigest t).length + 1) / 2)).map
          ((fun k => hexPairVal (((hexdigest (b :: t)).drop (2 * k)).take 2)) ∘ Nat.succ)
        = (List.range (((hexdigest t).length + 1) / 2)).map
          (fun k => hexPairVal (((hexdigest t).drop (2 * k)).take 2)) := by
      apply List.map_congr_left
      intro k _
      exact hsucc k
    rw [hrest, ih ht, h0]

/-- Structure of the fallback embedding: the 32 digest bytes scaled by 255,
then exactly 992 zeros. -/
theorem fallbackEmbedding_eq (t : String) :
    fallbackEmbedding t
      = (sha256 (utf8Encode t)).map scaleByte ++ List.replicate 992 (0 : ℚ) := by
  have hdec := decode_hexdigest (sha256 (utf8Encode t)) (sha256_lt _)
  rw [hexdigest_length, sha256_length] at hdec
  norm_num at hdec
  have key : (List.range 32).map
        (fun k => scaleByte (hexPairVal (((hexdigest (sha256 (utf8Encode t))).drop (2 * k)).take 2)))
      = (sha256 (utf8Encode t)).map scaleByte := by
    conv_rhs => rw [← hdec]
    rw [List.map_map]
    rfl
  simp only [fallbackEmbedding]
  rw [hexdigest_length, sha256_length]
  norm_num
  rw [key]
  have h32 : ((sha256 (utf8Encode t)).map scaleByte).length = 32 := by
    rw [List.length_map, sha256_length]
  have hle : ((sha256 (utf8Encode t)).map scaleByte
      ++ List.replicate 992 (0 : ℚ)).length ≤ 1024 := by
    rw [List.length_append, h32, List.length_replicate]
  exact List.take_of_length_le hle

theorem fallbackEmbedding_length (t : String) : (fallbackEmbedding t).length = 1024 := by
  rw [fallbackEmbedding_eq]
  rw [List.length_append, List.length_map, sha256_length, List.length_replicate]

theorem fallbackEmbedding_range (t : String) :
    ∀ x ∈ fallbackEmbedding t, 0 ≤ x ∧ x ≤ 1 := by
  intro x hx
  rw [fallbackEmbedding_eq] at hx
  rcases List.mem_append.mp hx with h | h
  · rcases List.mem_map.mp h with ⟨b, hb, rfl⟩
    have hb256 : b < 256 := sha256_lt _ b hb
    refine ⟨div_nonneg (Nat.cast_nonneg b) (by norm_num), ?_⟩
    rw [scaleByte, div_le_one (by norm_num)]
    have hble : b ≤ 255 := by omega
    exact_mod_cast hble
  · rw [List.eq_of_mem_replicate h]
    norm_num

/-! ### Lemmas about `chunk_text` -/

theorem pyStrip_no_ws (l : List Char) (h : ∀ c ∈ l, isPyWs c = false) : pyStrip l = l := by
  have h1 : l.dropWhile isPyWs = l := by
    cases l with
    | nil => rfl
    | cons a t =>
      rw [List.dropWhile_cons, h a (by simp)]
      simp
  have h2 : l.reverse.dropWhile isPyWs = l.reverse := by
    cases hr : l.reverse with
    | nil => rfl
    | cons a t =>
      have ha : a ∈ l := by
        rw [← List.mem_reverse, hr]
        simp
      rw [List.dropWhile_cons, h a ha]
      simp
  rw [pyStrip, h1, h2, List.reverse_reverse]

theorem rfindIdx_of_not_mem (c : Char) (l : List Char) (h : c ∉ l) : rfindIdx c l = -1 := by
  induction l with
  | nil => rfl
  | cons a t ih =>
    have hat : c ∉ t := fun hc => h (List.mem_cons_of_mem _ hc)
    have hac : ¬(a = c) := fun he => h (by simp [he])
    simp [rfindIdx, ih hat, hac]

theorem pySlice_nat (l : List Char) (s size : Nat) (hs : s < l.length) :
    pySlice l (s : ℤ) ((s : ℤ) + (size : ℤ)) = (l.drop s).take size := by
  have hna : ¬((s : ℤ) < 0) := by omega
  have hnb : ¬((s : ℤ) + (size : ℤ) < 0) := by omega
  have hmins : min (s : ℤ) (l.length : ℤ) = (s : ℤ) := by omega
  simp only [pySlice, hna, hnb, if_false, hmins]
  have h1 : ((min ((s : ℤ) + (size : ℤ)) (l.length : ℤ)).toNat) = min (s + size) l.length := by
    omega
  have h2 : ((s : ℤ)).toNat = s := by omega
  rw [h1, h2, List.drop_take]
  have h3 : min (s + size) l.length - s = min size (l.length - s) := by omega
  rw [h3]
  rcases Nat.le_total size (l.length - s) with hc | hc
  · rw [Nat.min_eq_left hc]
  · rw [Nat.min_eq_right hc]
    have hlen : (l.drop s).length = l.length - s := List.length_drop s l
    rw [← hlen, List.take_length]
    rw [List.take_of_length_le (by omega)]

theorem chunkLoop_step (text : List Char) (size overlap n : Nat) (start : Nat)
    (hs : start < text.length)
    (hnd : '.' ∉ (text.drop start).take size)
    (hnn : '\n' ∉ (text.drop start).take size) :
    chunkLoop text size overlap (n + 1) (start : ℤ)
      = (chunkLoop text size overlap n ((start : ℤ) + (size : ℤ) - (overlap : ℤ))).map
          (fun cs => pyStrip ((text.drop start).take size) :: cs) := by
  have hlt : (start : ℤ) < (text.length : ℤ) := by exact_mod_cast hs
  rw [chunkLoop, if_pos hlt]
  simp only [pySlice_nat text start size hs]
  by_cases hend : (start : ℤ) + (size : ℤ) < (text.length : ℤ)
  · rw [if_pos hend]
    rw [rfindIdx_of_not_mem _ _ hnd, rfindIdx_of_not_mem _ _ hnn]
    have hbp : ¬(2 * (max (-1 : ℤ) (-1 : ℤ)) > (size : ℤ)) := by omega
    rw [if_neg hbp]
  · rw [if_neg hend]

theorem cover_piece (l : List Char) (p k : Nat) :
    (l.drop p).take k ++ l.drop (p + k) = l.drop p := by
  conv_rhs => rw [← List.take_append_drop k (l.drop p)]
  rw [List.drop_drop]

theorem chunkLoop_cover (text : List Char) (size overlap : Nat)
    (hov : overlap < size)
    (hsp : ∀ c ∈ text, isPyWs c = false ∧ c ≠ '.') :
    ∀ fuel (start : Nat), text.length - start < fuel → start < text.length →
    ∃ rest, chunkLoop text size overlap fuel (start : ℤ)
        = some (((text.drop start).take size) :: rest)
      ∧ (rest.map (List.drop overlap)).flatten = text.drop (start + size) := by
  intro fuel
  induction fuel with
  | zero => intro start h1 _; omega
  | succ n ih =>
    intro start h1 h2
    have hchunk : ∀ c ∈ (text.drop start).take size, isPyWs c = false ∧ c ≠ '.' :=
      fun c hc => hsp c (List.drop_subset _ _ (List.take_subset _ _ hc))
    have hnd : '.' ∉ (text.drop start).take size := fun hm => (hchunk _ hm).2 rfl
    have hnn : '\n' ∉ (text.drop start).take size := fun hm => by
      have := (hchunk _ hm).1
      simp [isPyWs] at this
    have hstep := chunkLoop_step text size overlap n start h2 hnd hnn
    have hcast : ((start : ℤ) + (size : ℤ) - (overlap : ℤ)) = ((start + size - overlap : Nat) : ℤ) := by
      omega
    rw [hcast] at hstep
    have hstrip : pyStrip ((text.drop start).take size) = (text.drop start).take size :=
      pyStrip_no_ws _ (fun c hc => (hchunk c hc).1)
    by_cases hlt2 : start + size - overlap < text.length
    · obtain ⟨rest2, hloop2, hjoin2⟩ := ih (start + size - overlap) (by omega) hlt2
      refine ⟨((text.drop (start + size - overlap)).take size) :: rest2, ?_, ?_⟩
      · rw [hstep, hloop2]
        simp [hstrip]
      · show (List.drop overlap ((text.drop (start + size - overlap)).take size))
            ++ (rest2.map (List.drop overlap)).flatten = text.drop (start + size)
        rw [hjoin2, List.drop_take, List.drop_drop]
        have he1 : start + size - overlap + overlap = start + size := by omega
        have he2 : start + size - overlap + size = (start + size) + (size - overlap) := by omega
        rw [he1, he2]
        exact cover_piece text (start + size) (size - overlap)
    · refine ⟨[], ?_, ?_⟩
      · rw [hstep]
        rcases n with _ | m
        · omega
        · have hge : ¬(((start + size - overlap : Nat) : ℤ) < (text.length : ℤ)) := by omega
          rw [chunkLoop, if_neg hge]
          simp [hstrip]
      · have hge2 : text.length ≤ start + size := by omega
        simp [List.drop_eq_nil_of_le hge2]

theorem chunkText_cover (text : List Char) (size overlap : Nat)
    (hov : overlap < size)
    (hsp : ∀ c ∈ text, isPyWs c = false ∧ c ≠ '.') :
    ∃ cs, chunkText text size overlap = some cs ∧ reconOverlap overlap cs = text := by
  by_cases hlen : text.length ≤ size
  · refine ⟨[text], ?_, ?_⟩
    · rw [chunkText, if_pos hlen]
    · simp [reconOverlap]
  · push_neg at hlen
    obtain ⟨rest, hloop, hjoin⟩ :=
      chunkLoop_cover text size overlap hov hsp (text.length + 1) 0 (by omega) (by omega)
    refine ⟨((text.drop 0).take size) :: rest, ?_, ?_⟩
    · rw [chunkText, if_neg (by omega)]
      have h0 : ((0 : Nat) : ℤ) = (0 : ℤ) := rfl
      rw [← h0, hloop]
    · show (text.drop 0).take size ++ (rest.map (List.drop overlap)).flatten = text
      rw [hjoin]
      simp only [List.drop_zero, Nat.zero_add]
      exact List.take_append_drop size text

/-! ### Lemmas about the parser stages -/

theorem addItem_severity (acc : ParseAcc) (c : List Char) :
    (addItem acc c).severity = acc.severity := by
  unfold addItem
  split <;> first | rfl | (split <;> rfl)

theorem processLine_severity (acc : ParseAcc) (l : List Char) :
    (processLine acc l).severity = acc.severity
    ∨ (processLine acc l).severity = "mild".data
    ∨ (processLine acc l).severity = "severe".data
    ∨ (processLine acc l).severity = "moderate".data := by
  simp only [processLine]
  split
  · exact Or.inl rfl
  split
  · exact Or.inl rfl
  split
  · exact Or.inl rfl
  split
  · split
    · exact Or.inr (Or.inl rfl)
    split
    · exact Or.inr (Or.inr (Or.inl rfl))
    split
    · exact Or.inr (Or.inr (Or.inr rfl))
    · exact Or.inl rfl
  split
  · split
    · exact Or.inl (addItem_severity _ _)
    · exact Or.inl rfl
  split
  · split
    · exact Or.inl (addItem_severity _ _)
    · exact Or.inl rfl
  split
  · split
    · split
      · exact Or.inl rfl
      · exact Or.inl rfl
    · split
      · exact Or.inl rfl
      · exact Or.inl rfl
    · exact Or.inl rfl
  · exact Or.inl rfl

theorem foldl_severity (lines : List (List Char)) : ∀ acc : ParseAcc,
    (acc.severity = "mild".data ∨ acc.severity = "severe".data
      ∨ acc.severity = "moderate".data) →
    ((lines.foldl processLine acc).severity = "mild".data
      ∨ (lines.foldl processLine acc).severity = "severe".data
      ∨ (lines.foldl processLine acc).severity = "moderate".data) := by
  induction lines with
  | nil => exact fun acc h => h
  | cons l ls ih =>
    intro acc h
    apply ih
    rcases processLine_severity acc l with he | h2
    · rw [he]
      exact h
    · exact h2

theorem sectionParse_severity (t : String) :
    (sectionParse t).severity = "mild".data ∨ (sectionParse t).severity = "severe".data
      ∨ (sectionParse t).severity = "moderate".data :=
  foldl_severity _ initAcc (by right; right; rfl)

theorem take5_bounds (l : List String) (d : String) :
    1 ≤ ((if l.isEmpty then [d] else l).take 5).length
    ∧ ((if l.isEmpty then [d] else l).take 5).length ≤ 5 := by
  split
  · simp
  · rename_i h
    rw [List.length_take]
    have hpos : 0 < l.length := by
      cases l with
      | nil => simp at h
      | cons a t => simp
    omega

/-! ### Claim C1

The claim asserts that `_parse_text_response` always returns 1 to 5
conditions and 1 to 5 recommendations.  This fails on the JSON-extraction
path, which adopts the parsed lists without any bound: the input
`{"conditions": [], "recommendations": []}` yields two empty lists.  The
amended statement proved below: whenever the JSON stage yields nothing, the
result of the (total, never-raising) parser has 1 to 5 items in each list
and a severity among `mild`, `severe`, `moderate`. -/

/-- Claim C1, counterexample: on the model response
`{"conditions": [], "recommendations": []}` the parser returns zero
conditions and zero recommendations, violating the claimed lower bound of
one item per list. -/
theorem claim_C1_counterexample :
    (parseTextResponse "\x7b\"conditions\": [], \"recommendations\": []\x7d").conditions = []
    ∧ (parseTextResponse "\x7b\"conditions\": [], \"recommendations\": []\x7d").recommendations
        = [] := by
  decide

/-- Claim C1, amended: for every raw response on which the JSON-extraction
stage fails, `_parse_text_response` (a total function in this embedding: the
Python method catches all stage-1 exceptions and the other stages cannot
raise) returns between 1 and 5 conditions, between 1 and 5 recommendations,
and a severity among `mild`, `severe` and `moderate`. -/
theorem claim_C1 (t : String) (hj : jsonExtract t = none) :
    (1 ≤ (parseTextResponse t).conditions.length
      ∧ (parseTextResponse t).conditions.length ≤ 5)
    ∧ (1 ≤ (parseTextResponse t).recommendations.length
      ∧ (parseTextResponse t).recommendations.length ≤ 5)
    ∧ ((parseTextResponse t).severity_assessment = "mild"
      ∨ (parseTextResponse t).severity_assessment = "severe"
      ∨ (parseTextResponse t).severity_assessment = "moderate") := by
  simp only [parseTextResponse, hj]
  refine ⟨take5_bounds _ _, take5_bounds _ _, ?_⟩
  rcases sectionParse_severity t with h | h | h
  · left
    rw [h]
    decide
  · right
    left
    rw [h]
    decide
  · right
    right
    rw [h]
    decide

/-- Claim C1, witness at a concrete input with no JSON object. -/
theorem claim_C1_witness :
    (1 ≤ (parseTextResponse "I am not sure what to say.").conditions.length
      ∧ (parseTextResponse "I am not sure what to say.").conditions.length ≤ 5)
    ∧ (1 ≤ (parseTextResponse "I am not sure what to say.").recommendations.length
      ∧ (parseTextResponse "I am not sure what to say.").recommendations.length ≤ 5)
    ∧ ((parseTextResponse "I am not sure what to say.").severity_assessment = "mild"
      ∨ (parseTextResponse "I am not sure what to say.").severity_assessment = "severe"
      ∨ (parseTextResponse "I am not sure what to say.").severity_assessment = "moderate") :=
  claim_C1 "I am not sure what to say." (by decide)

/-! ### Claim C2

`generate_symptom_analysis` indeed never propagates an invocation failure
and returns non-empty advisory lists, but the severity of the fallback
result is the string `"Unable to assess"`, not `unknown`. -/

/-- Claim C2, counterexample: on a failed invocation the orchestrator
returns severity `"Unable to assess"`, not `"unknown"` as claimed. -/
theorem claim_C2_counterexample :
    (generateSymptomAnalysis (.error "connection refused") (.error "x") "headache" none).severity
      = "Unable to assess"
    ∧ (generateSymptomAnalysis (.error "connection refused") (.error "x") "headache" none).severity
      ≠ "unknown" := by
  decide

/-- Claim C2, amended: if the first LLM invocation raises, or the first
response triggers the retry and the retry invocation raises, then
`generate_symptom_analysis` returns (it cannot raise in this total model) the
static fallback result: non-empty advisory condition and recommendation
lists and severity `"Unable to assess"`. -/
theorem claim_C2 :
    (∀ (e : String) (a2 : Except String String) (s : String) (c : Option (List String)),
      (generateSymptomAnalysis (.error e) a2 s c).severity = "Unable to assess"
      ∧ (generateSymptomAnalysis (.error e) a2 s c).conditions ≠ []
      ∧ (generateSymptomAnalysis (.error e) a2 s c).recommendations ≠ [])
    ∧ (∀ (t e s : String) (c : Option (List String)),
      isShortResponse t = false → needsRetryCheck t = true →
      (generateSymptomAnalysis (.ok t) (.error e) s c).severity = "Unable to assess"
      ∧ (generateSymptomAnalysis (.ok t) (.error e) s c).conditions ≠ []
      ∧ (generateSymptomAnalysis (.ok t) (.error e) s c).recommendations ≠ []) := by
  constructor
  · intro e a2 s c
    simp [generateSymptomAnalysis, analyzeSymptomsNode, fallbackAnalysis]
  · intro t e s c h1 h2
    simp [generateSymptomAnalysis, analyzeSymptomsNode, h1, h2, fallbackAnalysis]

/-- Claim C2, witness: a concrete acknowledgment-style first response whose
retry fails. -/
theorem claim_C2_witness :
    (generateSymptomAnalysis
        (.ok "Okay, I understand your symptoms and will analyze them now.")
        (.error "boom") "headache" none).severity = "Unable to assess"
    ∧ (generateSymptomAnalysis
        (.ok "Okay, I understand your symptoms and will analyze them now.")
        (.error "boom") "headache" none).conditions ≠ []
    ∧ (generateSymptomAnalysis
        (.ok "Okay, I understand your symptoms and will analyze them now.")
        (.error "boom") "headache" none).recommendations ≠ [] :=
  claim_C2.2 "Okay, I understand your symptoms and will analyze them now."
    "boom" "headache" none (by decide) (by decide)

/-! ### Claim C3

`chunk_text` has no `overlap < chunk_size` guard: with `overlap = chunk_size`
and a text longer than one chunk the loop never advances (`start = end -
overlap` restores the previous value), so the routine loops forever instead
of failing fast.  The code contradicts the required input-validation guard
the specification states; the theorem exhibits the divergence: no iteration
budget whatsoever lets the loop of `chunk_text("aaaaaaaaaa", 4, 4)`
terminate. -/

/-- Claim C3: the chunking loop on `("aaaaaaaaaa", chunk_size := 4,
overlap := 4)` exhausts every finite iteration budget — the Python code
loops forever, it does not raise a configuration error. -/
theorem claim_C3 :
    (∀ fuel, chunkLoop ("aaaaaaaaaa".data) 4 4 fuel 0 = none)
    ∧ chunkText ("aaaaaaaaaa".data) 4 4 = none := by
  have hloop : ∀ fuel, chunkLoop ("aaaaaaaaaa".data) 4 4 fuel 0 = none := by
    intro fuel
    induction fuel with
    | zero => rfl
    | succ n ih =>
      have hstep : chunkLoop ("aaaaaaaaaa".data) 4 4 (n + 1) 0
          = (chunkLoop ("aaaaaaaaaa".data) 4 4 n 0).map (fun cs => "aaaa".data :: cs) := rfl
      rw [hstep, ih]
      rfl
  refine ⟨hloop, ?_⟩
  rw [chunkText, if_neg (by decide)]
  exact hloop _

/-! ### Claim C4

On the quoted input the parser does not return `["Flu","Cold"]`, `["Rest"]`
and `severe`: the items `Flu`, `Cold` and `Rest` are discarded by the
`len(content) > 5` filter, and the single severity line contains both `mild`
and `severe`, where the code checks `mild` first — within one line `mild`
beats `severe`.  Across separate lines the last assignment does win. -/

/-- Claim C4, counterexample: on the claimed input the parser returns the
fallback lists and severity `mild`, not `["Flu","Cold"]` / `["Rest"]` /
`severe`. -/
theorem claim_C4_counterexample :
    parseTextResponse
        "CONDITIONS:\n1. Flu\n2. Cold\nRECOMMENDATIONS:\n1. Rest\nSEVERITY: mild then SEVERITY: severe"
      ≠ ⟨["Flu", "Cold"], ["Rest"], "severe"⟩
    ∧ (parseTextResponse
        "CONDITIONS:\n1. Flu\n2. Cold\nRECOMMENDATIONS:\n1. Rest\nSEVERITY: mild then SEVERITY: severe").severity_assessment
      = "mild" := by
  decide

/-- Claim C4, amended: severity lines re-assign severity with the keyword
priority `mild`, then `severe`, then `moderate` inside a single line, and
across lines the last assignment wins; on the claimed input all three list
items fail the minimum-length filter, so the parser returns the fallback
condition and recommendation advisories with severity `mild`, while an input
with `mild` and `severe` on separate lines ends with `severe`. -/
theorem claim_C4 :
    parseTextResponse
        "CONDITIONS:\n1. Flu\n2. Cold\nRECOMMENDATIONS:\n1. Rest\nSEVERITY: mild then SEVERITY: severe"
      = ⟨["Consult a healthcare professional for proper diagnosis"],
         ["Consult a healthcare professional"], "mild"⟩
    ∧ (parseTextResponse "CONDITIONS:\nSEVERITY: mild\nSEVERITY: severe").severity_assessment
      = "severe" := by
  decide

/-! ### Claim C5

The hash fallback of `generate_embedding` is a pure function of the text
with all values in `[0, 1]`, but its vector has 1024 entries — not the
deployment dimension `D = 384` of the Pinecone index created by
`_initialize_index`. -/

/-- Claim C5, counterexample: the fallback vector for `"headache and fever"`
has 1024 entries, not the index dimension 384. -/
theorem claim_C5_counterexample :
    (fallbackEmbedding "headache and fever").length ≠ indexDimension := by
  rw [fallbackEmbedding_length, indexDimension]
  decide

/-- Claim C5, amended: the hash fallback is a pure function of the text (it
is a function of the text alone in this embedding), every value lies in
`[0, 1]`, and its length is 1024 — which differs from the 384-dimensional
backing index. -/
theorem claim_C5 (t : String) :
    (fallbackEmbedding t).length = 1024
    ∧ (∀ x ∈ fallbackEmbedding t, 0 ≤ x ∧ x ≤ 1)
    ∧ (fallbackEmbedding t).length ≠ indexDimension := by
  refine ⟨fallbackEmbedding_length t, fallbackEmbedding_range t, ?_⟩
  rw [fallbackEmbedding_length, indexDimension]
  decide

/-- Claim C5, witness: the bounds instantiated at the empty text and the
value `0`, which occurs in the padding. -/
theorem claim_C5_witness :
    (fallbackEmbedding "").length = 1024 ∧ (0 ≤ (0 : ℚ) ∧ (0 : ℚ) ≤ 1) :=
  ⟨(claim_C5 "").1, (claim_C5 "").2.1 0 (by
    rw [fallbackEmbedding_eq]
    exact List.mem_append_right _ (List.mem_replicate.mpr ⟨by norm_num, rfl⟩))⟩

/-! ### Claim C6

Chunk coverage fails in general because every chunk is stripped of
whitespace before being returned: `chunk_text("aaaa bbbb", 5, 1)` returns
`["aaaa", "bbbb", "b"]` and re-assembling loses the space.  Coverage does
hold — and is proved below — whenever stripping cannot alter any window,
i.e. for texts without whitespace and without the sentence terminator
`.`. -/

/-- Claim C6, counterexample: for `("aaaa bbbb", size 5, overlap 1)`,
concatenating the chunks with the overlapped regions removed yields
`"aaaabbb"`, not the original text. -/
theorem claim_C6_counterexample :
    chunkText ("aaaa bbbb".data) 5 1 = some ["aaaa".data, "bbbb".data, "b".data]
    ∧ reconOverlap 1 ["aaaa".data, "bbbb".data, "b".data] ≠ "aaaa bbbb".data := by
  decide

/-- Claim C6, amended: for every text free of whitespace and of `.` (so that
stripping and the soft sentence-break cannot alter any window) and every
`overlap < size`, the loop terminates and concatenating the chunks with the
overlapped regions removed reconstructs the text exactly. -/
theorem claim_C6 (text : List Char) (size overlap : Nat)
    (hov : overlap < size)
    (hsp : ∀ c ∈ text, isPyWs c = false ∧ c ≠ '.') :
    ∃ cs, chunkText text size overlap = some cs ∧ reconOverlap overlap cs = text :=
  chunkText_cover text size overlap hov hsp

/-- Claim C6, witness: a concrete whitespace-free text. -/
theorem claim_C6_witness :
    ∃ cs, chunkText ("abcdefgh".data) 4 2 = some cs ∧ reconOverlap 2 cs = "abcdefgh".data :=
  claim_C6 ("abcdefgh".data) 4 2 (by decide) (by decide)

/-! ### Claim C7

When the text fits in one chunk, `chunk_text` returns `[text]` unchanged:
the single-window path does not strip, contrary to the claim. -/

/-- Claim C7, counterexample: `chunk_text("  hi  ", 10, 2)` returns the text
with its surrounding whitespace, not the stripped text. -/
theorem claim_C7_counterexample :
    chunkText ("  hi  ".data) 10 2 = some ["  hi  ".data]
    ∧ chunkText ("  hi  ".data) 10 2 ≠ some [pyStrip ("  hi  ".data)] := by
  decide

/-- Claim C7, amended: with `len(text) ≤ size` the function returns exactly
one chunk equal to the input text as-is (not stripped). -/
theorem claim_C7 (text : List Char) (size overlap : Nat) (h : text.length ≤ size) :
    chunkText text size overlap = some [text] := by
  rw [chunkText, if_pos h]

/-- Claim C7, witness. -/
theorem claim_C7_witness : chunkText ("  hi  ".data) 10 2 = some ["  hi  ".data] :=
  claim_C7 ("  hi  ".data) 10 2 (by decide)

/-! ### Claim C8

A near-empty first response is not retried: the code raises a `ValueError`
that lands in the fallback branch, so such responses never reach the retry;
moreover the acknowledgment phrases are matched as substrings of the first
200 characters, not only at the beginning.  The retry itself fires exactly
when the response is not near-empty, contains an acknowledgment phrase in
its lowered first 200 characters and lacks `CONDITIONS:` anywhere, happens
at most once, and its text is parsed with no re-validation. -/

/-- Claim C8, counterexample: the near-empty response `"ok"` (which the
claim calls non-compliant and says is re-issued once, with the retry text
accepted) is never retried: even with a fully compliant retry available, the
node returns the error fallback. -/
theorem claim_C8_counterexample :
    analyzeSymptomsNode (.ok "ok")
        (.ok "CONDITIONS:\n1. Influenza infection\nRECOMMENDATIONS:\n1. Rest and hydrate well\nSEVERITY: mild")
        ⟨"headache", none, none, none⟩
      = ⟨"headache", none, some fallbackAnalysis,
         some "LLM returned empty or very short response"⟩ := by
  decide

/-- Claim C8, amended: (1) a near-empty first response short-circuits to the
error fallback without consulting the retry; (2) when the first response is
not near-empty and trips the acknowledgment check, the retry response is
parsed as-is, with no re-validation; (3) when the first response passes
validation, the node result does not depend on the retry oracle at all — the
request is never re-issued more than once. -/
theorem claim_C8 :
    (∀ (t : String) (a2 : Except String String) (st : NodeState),
      isShortResponse t = true →
      analyzeSymptomsNode (.ok t) a2 st
        = { st with analysis := some fallbackAnalysis,
                    error := some "LLM returned empty or very short response" })
    ∧ (∀ (t r : String) (st : NodeState),
      isShortResponse t = false → needsRetryCheck t = true →
      analyzeSymptomsNode (.ok t) (.ok r) st
        = { st with analysis := some (parseTextResponse r), error := none })
    ∧ (∀ (t : String) (a2 a2t : Except String String) (st : NodeState),
      isShortResponse t = false → needsRetryCheck t = false →
      analyzeSymptomsNode (.ok t) a2 st = analyzeSymptomsNode (.ok t) a2t st) := by
  refine ⟨fun t a2 st h1 => ?_, fun t r st h1 h2 => ?_, fun t a2 a2t st h1 h2 => ?_⟩
  · simp [analyzeSymptomsNode, h1]
  · simp [analyzeSymptomsNode, h1, h2]
  · simp [analyzeSymptomsNode, h1, h2]

/-- Claim C8, witness: an acknowledgment-style first response whose retry
text is itself non-compliant and is still handed to the parser unchecked. -/
theorem claim_C8_witness :
    analyzeSymptomsNode
        (.ok "Okay, I understand your symptoms and will analyze them now.")
        (.ok "I can help with that request.") ⟨"headache", none, none, none⟩
      = ⟨"headache", none,
         some (parseTextResponse "I can help with that request."), none⟩ :=
  claim_C8.2.1 "Okay, I understand your symptoms and will analyze them now."
    "I can help with that request." ⟨"headache", none, none, none⟩
    (by decide) (by decide)

/-! ### Claim C9

Both retrieval queries return an empty list, and cannot raise, when the
backing index is missing (`self.index` is `None`) or when accessing it
raises. -/

/-- Claim C9: with no backing index, or with an index whose query raises,
`search_similar_symptoms` and `search_pdf_content` return the empty
sequence (they are total functions in this embedding, so they cannot
raise). -/
theorem claim_C9 :
    (∀ (emb : List ℚ) (topK : Nat),
      searchSimilarSymptoms none emb topK = [] ∧ searchPdfContent none emb topK = [])
    ∧ (∀ (q : List ℚ → Nat → Except String (List PMatch)) (emb : List ℚ) (topK : Nat)
        (e : String), q emb topK = .error e →
      searchSimilarSymptoms (some q) emb topK = [] ∧ searchPdfContent (some q) emb topK = []) := by
  constructor
  · intro emb topK
    exact ⟨rfl, rfl⟩
  · intro q emb topK e he
    constructor
    · simp [searchSimilarSymptoms, he]
    · simp [searchPdfContent, he]

/-- Claim C9, witness: a concrete always-raising index. -/
theorem claim_C9_witness :
    searchSimilarSymptoms (some (fun _ _ => .error "index unavailable")) [1] 5 = []
    ∧ searchPdfContent (some (fun _ _ => .error "index unavailable")) [1] 5 = [] :=
  claim_C9.2 (fun _ _ => .error "index unavailable") [1] 5 "index unavailable" rfl

/-! ### Claim C10

Structure of the hash fallback vector: exactly 1024 entries, the first 32
being the SHA-256 digest bytes of the UTF-8 encoded text each divided by
255, everything from index 32 on exactly 0; it depends on nothing but the
text. -/

/-- Claim C10: the fallback embedding equals the 32 digest bytes scaled by
`1/255` followed by exactly 992 zeros, and has 1024 entries. -/
theorem claim_C10 (t : String) :
    fallbackEmbedding t
      = (sha256 (utf8Encode t)).map scaleByte ++ List.replicate 992 (0 : ℚ)
    ∧ (fallbackEmbedding t).length = 1024 :=
  ⟨fallbackEmbedding_eq t, fallbackEmbedding_length t⟩

end HealthChecker
